import Mathlib

/-
Verification of the `gmx_flow` flow-field library: the GMX_FLOW binary
format codec (`src/gmx_flow/flow/io/input.py`, `output.py`), the flow
field model (`src/gmx_flow/flow/gmxflow.py`) and the format converter
(`src/gmx_flow/flow/convert.py`).

Modelling conventions:
* Field values are rationals (`ℚ`).  The claims under study quantify "at
  float32 precision", i.e. over values exactly representable in float32,
  on which the float64→float32 narrowing performed by the writer is the
  identity; it is therefore modelled by the identity `to_f32`.
* A numpy structured array is modelled column-wise as an association
  list `FlowData` from field labels to columns; all columns of a
  well-formed array have the same length (carried as hypotheses).
* Python exceptions (KeyError, IndexError, ValueError on empty
  reductions, reshape failures) are modelled by `Option`: `none` means
  the operation raises.
* The fixed-width binary payload (`tobytes`/`frombuffer`) is a bijection
  between byte blocks and typed columnar arrays, so a file is modelled
  at the typed level (`FlowFile`): uint64 index blocks as `List ℕ`,
  float32 blocks as `List ℚ`.
* The derived `flow = sqrt(U² + V²)` accessor added by
  `GmxFlow.__post_init__` involves a real square root, is never
  persisted, and is referenced by no claim; it is not modelled.
-/

namespace GmxFlowVerif

/-! ### Kernel-computable rational arithmetic

`Rat.add`, `Rat.mul`, `Rat.sub` and `Rat.inv` are `@[irreducible]`, so
concrete witnesses could not be checked by `decide` through them.  The
wrappers below are the same operations built from `Rat.divInt` (which
does reduce); the `…_eq` lemmas prove they agree with the standard
arithmetic, and every statement about them may be read through those
equations. -/

/-- Addition on `ℚ`, computable in the kernel. -/
def qadd (a b : ℚ) : ℚ := Rat.divInt (a.num * b.den + b.num * a.den) (a.den * b.den)

/-- Subtraction on `ℚ`, computable in the kernel. -/
def qsub (a b : ℚ) : ℚ := Rat.divInt (a.num * b.den - b.num * a.den) (a.den * b.den)

/-- Multiplication on `ℚ`, computable in the kernel. -/
def qmul (a b : ℚ) : ℚ := Rat.divInt (a.num * b.num) (a.den * b.den)

/-- Division on `ℚ` (with `x / 0 = 0`), computable in the kernel. -/
def qdiv (a b : ℚ) : ℚ := Rat.divInt (a.num * b.den) (a.den * b.num)

/-- The constant `1/2`, computable in the kernel. -/
def qhalf : ℚ := Rat.divInt 1 2

/-- `min` on `ℚ`, computable in the kernel. -/
def qmin (a b : ℚ) : ℚ := if a ≤ b then a else b

/-- `max` on `ℚ`, computable in the kernel. -/
def qmax (a b : ℚ) : ℚ := if b ≤ a then a else b

theorem qadd_eq (a b : ℚ) : qadd a b = a + b := by
  have hda : (a.den : ℤ) ≠ 0 := Int.natCast_ne_zero.mpr a.den_nz
  have hdb : (b.den : ℤ) ≠ 0 := Int.natCast_ne_zero.mpr b.den_nz
  conv_rhs => rw [← Rat.num_divInt_den a, ← Rat.num_divInt_den b,
    Rat.divInt_add_divInt _ _ hda hdb]
  unfold qadd
  rfl

theorem qsub_eq (a b : ℚ) : qsub a b = a - b := by
  have hda : (a.den : ℤ) ≠ 0 := Int.natCast_ne_zero.mpr a.den_nz
  have hdb : (b.den : ℤ) ≠ 0 := Int.natCast_ne_zero.mpr b.den_nz
  conv_rhs => rw [← Rat.num_divInt_den a, ← Rat.num_divInt_den b,
    Rat.divInt_sub_divInt _ _ hda hdb]
  unfold qsub
  rfl

theorem qmul_eq (a b : ℚ) : qmul a b = a * b := by
  have hda : (a.den : ℤ) ≠ 0 := Int.natCast_ne_zero.mpr a.den_nz
  have hdb : (b.den : ℤ) ≠ 0 := Int.natCast_ne_zero.mpr b.den_nz
  conv_rhs => rw [← Rat.num_divInt_den a, ← Rat.num_divInt_den b,
    Rat.divInt_mul_divInt _ _ hda hdb]
  unfold qmul
  rfl

theorem qdiv_eq (a b : ℚ) : qdiv a b = a / b := by
  conv_rhs => rw [← Rat.num_divInt_den a, ← Rat.num_divInt_den b, Rat.divInt_div_divInt]
  unfold qdiv
  rfl

theorem qhalf_eq : qhalf = 1 / 2 := by
  rw [qhalf, Rat.divInt_eq_div]
  norm_num

theorem qmin_eq (a b : ℚ) : qmin a b = min a b := by
  rw [qmin, min_def]

theorem qmax_eq (a b : ℚ) : qmax a b = max a b := by
  unfold qmax
  rcases le_or_lt b a with h | h
  · rw [if_pos h, max_eq_left h]
  · rw [if_neg (not_le.mpr h), max_eq_right (le_of_lt h)]

/-! ### Generic list helpers (numpy primitives) -/

/-- Boolean-mask selection, `xs[mask]` for a numpy boolean index. -/
def applyMask {α : Type} : List Bool → List α → List α
  | true :: ms, x :: xs => x :: applyMask ms xs
  | false :: ms, _ :: xs => applyMask ms xs
  | _, _ => []

/-- Fancy-index assignment `grid[ixs, iys] = vals` on a row-major flat
grid with row length `ny`: later records overwrite earlier ones. -/
def scatter (ny : Nat) (base : List ℚ) (ixs iys : List Nat) (vals : List ℚ) : List ℚ :=
  ((ixs.zip iys).zip vals).foldl (fun acc p => acc.set (p.1.1 * ny + p.1.2) p.2) base

/-- `values.min()` of a numpy array; raises (`none`) when empty. -/
def listMin : List ℚ → Option ℚ
  | [] => none
  | x :: xs => some (xs.foldl qmin x)

/-- `values.max()` of a numpy array; raises (`none`) when empty. -/
def listMax : List ℚ → Option ℚ
  | [] => none
  | x :: xs => some (xs.foldl qmax x)

/-- Floor of a rational, computed with integer floor-division. -/
def qfloor (q : ℚ) : ℤ := q.num.fdiv (q.den : ℤ)

/-- `np.round` for a scalar: round half to even (banker's rounding). -/
def np_round (q : ℚ) : ℤ :=
  let f := qfloor q
  let r := qsub q (f : ℚ)
  if r < qhalf then f
  else if qhalf < r then f + 1
  else if f % 2 = 0 then f else f + 1

/-! ### The flow field model (`gmxflow.py`) -/

/-- A numpy structured array, stored as labelled columns. -/
abbrev FlowData := List (String × List ℚ)

/-- `GmxFlow`: the live `data` view (with its numpy dimensionality
`ndim`), grid metadata, and the full `_backup_data` grid kept for
`reset_view`; `version` is 1 or 2 (`GmxFlowVersion`). -/
structure GmxFlow where
  data : FlowData
  ndim : Nat
  shape : ℤ × ℤ
  spacing : ℚ × ℚ
  origin : ℚ × ℚ
  version : Nat
  backup_data : FlowData
  backup_shape : ℤ × ℤ
deriving DecidableEq

/-- `GmxFlow.__post_init__`: back up the input data reshaped to `shape`
(`none` models the reshape `ValueError` and numpy's rejection of
negative dimensions), then `reset_view`. -/
def mkGmxFlow (data : FlowData) (shape : ℤ × ℤ) (spacing : ℚ × ℚ) (version : Nat)
    (origin : ℚ × ℚ) : Option GmxFlow :=
  if 0 ≤ shape.1 ∧ 0 ≤ shape.2 ∧
      data.all (fun p => p.2.length = shape.1.toNat * shape.2.toNat) then
    some ⟨data, 2, shape, spacing, origin, version, data, shape⟩
  else none

/-- Rewrite one column of a structured array in place
(`data[l] = g(data[l])`); other columns are untouched.  When the label
is absent nothing happens. -/
def map_field (l : String) (g : ℚ → ℚ) (d : FlowData) : FlowData :=
  d.map (fun p => if p.1 = l then (p.1, p.2.map g) else p)

/-- `GmxFlow._update_shape`: recompute `shape` from the surviving bin
positions (`_calc_shape_from_data`), and resize `data` back to a 2D
grid when the element count matches.  `none` models the `ValueError`
raised by the empty reductions `min`/`max`, or a missing X/Y column. -/
def update_shape (f : GmxFlow) : Option GmxFlow :=
  match f.data.lookup "X", f.data.lookup "Y" with
  | some xs, some ys =>
    match listMin xs, listMax xs, listMin ys, listMax ys with
    | some xmin, some xmax, some ymin, some ymax =>
      let nx := np_round (qdiv (qsub xmax xmin) f.spacing.1) + 1
      let ny := np_round (qdiv (qsub ymax ymin) f.spacing.2) + 1
      some { f with shape := (nx, ny),
                    ndim := if (xs.length : ℤ) = nx * ny then 2 else f.ndim }
    | _, _, _, _ => none
  | _, _ => none

/-- The filter predicate of `set_clim`: `v >= cmin and v <= cmax`, an
absent bound standing for `-inf` / `inf`. -/
def limit_mask (cmin cmax : Option ℚ) (v : ℚ) : Bool :=
  (match cmin with | none => true | some c => decide (c ≤ v)) &&
  (match cmax with | none => true | some c => decide (v ≤ c))

/-- `GmxFlow.set_clim`: keep the bins whose `label` value lies within
the limits (the boolean mask flattens the view to 1D), then
`_update_shape`.  `none` models a KeyError on the label or the
empty-survivor `ValueError` inside `_update_shape`. -/
def set_clim (f : GmxFlow) (cmin cmax : Option ℚ) (label : String) : Option GmxFlow :=
  match f.data.lookup label with
  | none => none
  | some vs =>
    let mask := vs.map (limit_mask cmin cmax)
    update_shape { f with data := f.data.map (fun p => (p.1, applyMask mask p.2)),
                          ndim := 1 }

/-- `GmxFlow.set_xlim`: `set_clim` on the X column, then a second
`_update_shape`. -/
def set_xlim (f : GmxFlow) (a b : Option ℚ) : Option GmxFlow :=
  (set_clim f a b "X").bind update_shape

/-- `GmxFlow.set_ylim`: `set_clim` on the Y column, then a second
`_update_shape`. -/
def set_ylim (f : GmxFlow) (a b : Option ℚ) : Option GmxFlow :=
  (set_clim f a b "Y").bind update_shape

/-- `GmxFlow.reset_view`: point the live view back at the full backup
grid. -/
def reset_view (f : GmxFlow) : GmxFlow :=
  { f with data := f.backup_data, shape := f.backup_shape, ndim := 2 }

/-- `GmxFlow.copy`: `deepcopy` (the identity on values) followed by
`reset_view`. -/
def copy_flow (f : GmxFlow) : GmxFlow := reset_view f

/-! ### The format converter (`convert.py`) -/

/-- `convert_gmx_flow_1_to_2`: copy; if the copy is version 1, divide
its M column (shared between view and backup) by the bin volume
(a missing M is a caught KeyError and leaves the data alone) and set
the version to 2. -/
def convert_gmx_flow_1_to_2 (f : GmxFlow) (width : ℚ) : GmxFlow :=
  let c := copy_flow f
  if c.version = 1 then
    let bin_volume := qmul (qmul c.spacing.1 c.spacing.2) width
    let d := map_field "M" (fun m => qdiv m bin_volume) c.data
    { c with data := d, backup_data := d, version := 2 }
  else c

/-! ### The binary file (`output.py` / `input.py`) -/

/-- The float64 → float32 narrowing done by the writer
(`np.array(…, dtype=np.float32)`).  The claims quantify at float32
precision, where the narrowing is the identity, so it is modelled as
the identity on values. -/
def to_f32 (q : ℚ) : ℚ := q

/-- A GMX_FLOW file, abstracted at the typed level: the header values
and the columnar payload blocks (uint64 index blocks, float32 value
blocks keyed by their FIELDS label). -/
structure FlowFile where
  format : String
  origin : ℚ × ℚ
  shape : ℤ × ℤ
  spacing : ℚ × ℚ
  numdata : Nat
  ixs : List Nat
  iys : List Nat
  field_vals : List (String × List ℚ)
deriving DecidableEq

/-- `write_flow` (with `pack_data` inlined): check the mandatory
fields, keep the bins of the raveled live view with nonzero mass,
and emit the header values together with the packed columnar blocks
in the fixed order IX, IY, N, T, M, U, V.  `none` models the
missing-field `ValueError` and the IndexError of a boolean mask whose
length disagrees with the `shape`-derived index grids. -/
def write_flow (f : GmxFlow) : Option FlowFile :=
  if ["X", "Y", "N", "T", "M", "U", "V"].all (fun l => (f.data.lookup l).isSome) then
    match f.data.lookup "M" with
    | none => none
    | some ms =>
      let keep := ms.map (fun m => m != 0)
      let nx := f.shape.1.toNat
      let ny := f.shape.2.toNat
      let idx := List.range (nx * ny)
      if keep.length = nx * ny then
        some {
          format := if f.version = 1 then "GMX_FLOW_1" else "GMX_FLOW_2"
          origin := f.origin
          shape := f.shape
          spacing := f.spacing
          numdata := keep.countP (fun b => b)
          ixs := applyMask keep (idx.map (fun i => i / ny))
          iys := applyMask keep (idx.map (fun i => i % ny))
          field_vals := ["N", "T", "M", "U", "V"].map
            (fun l => (l, (applyMask keep ((f.data.lookup l).getD [])).map to_f32)) }
      else none
  else none

/-- One decoded data column: an all-zero dense column of `n` bins with
the sparse records scattered in. -/
def scatter_field (ny n : Nat) (ixt iyt : List Nat) (vals : List ℚ) : List ℚ :=
  scatter ny (List.replicate n 0) ixt iyt vals

/-- `read_flow` (with `_read_data` and `_read_values` inlined on the
typed file): resolve the version, take `numdata` records from every
payload block (`none` models a truncated payload and a KeyError on a
missing data field), reject out-of-range bin indices (`none` models
numpy's IndexError), rebuild the dense grid with analytic bin-center
coordinates, and construct the `GmxFlow`. -/
def read_flow (file : FlowFile) : Option GmxFlow :=
  let version? : Option Nat :=
    if file.format = "GMX_FLOW_1" then some 1
    else if file.format = "GMX_FLOW_2" then some 2
    else none
  match version? with
  | none => none
  | some version =>
    if 0 ≤ file.shape.1 ∧ 0 ≤ file.shape.2 then
      let nxn := file.shape.1.toNat
      let nyn := file.shape.2.toNat
      let nd := file.numdata
      match file.field_vals.lookup "N", file.field_vals.lookup "T",
          file.field_vals.lookup "M", file.field_vals.lookup "U",
          file.field_vals.lookup "V" with
      | some ns, some ts, some ms, some us, some vs =>
        if nd ≤ file.ixs.length ∧ nd ≤ file.iys.length ∧ nd ≤ ns.length ∧
            nd ≤ ts.length ∧ nd ≤ ms.length ∧ nd ≤ us.length ∧ nd ≤ vs.length then
          let ixt := file.ixs.take nd
          let iyt := file.iys.take nd
          if ixt.all (fun a => decide (a < nxn)) ∧ iyt.all (fun b => decide (b < nyn)) then
            let n := nxn * nyn
            let xcol := (List.range n).map
              (fun i => qadd file.origin.1 (qmul file.spacing.1 (qadd ((i / nyn : ℕ) : ℚ) qhalf)))
            let ycol := (List.range n).map
              (fun i => qadd file.origin.2 (qmul file.spacing.2 (qadd ((i % nyn : ℕ) : ℚ) qhalf)))
            let grid : FlowData := [
              ("X", xcol), ("Y", ycol),
              ("N", scatter_field nyn n ixt iyt (ns.take nd)),
              ("T", scatter_field nyn n ixt iyt (ts.take nd)),
              ("M", scatter_field nyn n ixt iyt (ms.take nd)),
              ("U", scatter_field nyn n ixt iyt (us.take nd)),
              ("V", scatter_field nyn n ixt iyt (vs.take nd))]
            mkGmxFlow grid file.shape file.spacing version file.origin
          else none
        else none
      | _, _, _, _, _ => none
    else none

/-! ### The header text codec (`_read_header` in `input.py`)

Header lines are ASCII (the reader does `content.decode('ascii')`
before parsing, so every character is below 128).  The Python string
primitives used by `_read_header` are modelled on `List Char`. -/

/-- Python's whitespace test for `str.split` / `str.strip` (ASCII). -/
def pyIsSpace (c : Char) : Bool :=
  c = ' ' || c = '\t' || c = '\n' || c = '\r' || c = '\x0b' || c = '\x0c'

/-- Worker for `pySplit`: `cur` is the (reversed) token in progress. -/
def pySplitGo : List Char → List Char → List (List Char)
  | cur, [] => if cur = [] then [] else [cur.reverse]
  | cur, c :: cs =>
    if pyIsSpace c then
      (if cur = [] then pySplitGo [] cs else cur.reverse :: pySplitGo [] cs)
    else pySplitGo (c :: cur) cs

/-- Python `str.split()` with no separator: split on whitespace runs,
discarding leading and trailing whitespace. -/
def pySplit (s : List Char) : List (List Char) := pySplitGo [] s

/-- Python `str.upper()` (on ASCII text). -/
def pyUpper (s : List Char) : List Char := s.map Char.toUpper

/-- Python `str.lstrip(chars)`: drop leading characters belonging to
the given character SET (not a prefix!). -/
def pyLstripSet (cs : List Char) (s : List Char) : List Char :=
  s.dropWhile (fun c => cs.contains c)

/-- Python `str.strip()`: drop whitespace from both ends. -/
def pyStrip (s : List Char) : List Char :=
  ((s.dropWhile pyIsSpace).reverse.dropWhile pyIsSpace).reverse

/-- Decimal digit-string value; `none` when empty or non-digit
characters appear. -/
def digitsVal : List Char → Option ℕ
  | [] => none
  | cs =>
    if cs.all Char.isDigit then
      some (cs.foldl (fun a c => a * 10 + (c.toNat - 48)) 0)
    else none

/-- Python `int(str)` on ASCII tokens: optional surrounding
whitespace, optional sign, decimal digits.  (Underscore separators and
non-ASCII digits, which CPython also accepts, do not occur in these
headers and are not modelled.) -/
def pyInt : List Char → Option ℤ :=
  fun s =>
    match pyStrip s with
    | '+' :: rest => (digitsVal rest).map (fun n => (n : ℤ))
    | '-' :: rest => (digitsVal rest).map (fun n => -(n : ℤ))
    | rest => (digitsVal rest).map (fun n => (n : ℤ))

/-- Fixed-point part of `pyFloat`: `digits`, `digits.digits?` or
`.digits`. -/
def floatCore (t : List Char) : Option ℚ :=
  let ip := t.takeWhile Char.isDigit
  let rest := t.drop ip.length
  match rest with
  | [] => (digitsVal ip).map (fun n => (n : ℚ))
  | '.' :: frac =>
    if frac.all Char.isDigit ∧ (ip ≠ [] ∨ frac ≠ []) then
      some (qadd ((ip.foldl (fun a c => a * 10 + (c.toNat - 48)) 0 : ℕ) : ℚ)
        (Rat.divInt (frac.foldl (fun a c => a * 10 + (c.toNat - 48)) 0 : ℕ) ((10 : ℤ) ^ frac.length)))
    else none
  | _ => none

/-- Python `float(str)` restricted to the fixed-point forms the writer
emits (`%12f`); exponent/inf/nan forms do not occur in these headers
and are not modelled. -/
def pyFloat : List Char → Option ℚ :=
  fun s =>
    match pyStrip s with
    | '+' :: rest => floatCore rest
    | '-' :: rest => (floatCore rest).map (fun q => -q)
    | rest => floatCore rest

/-- The parsed content of one header line: which keyword matched and
the arguments its branch extracted in `_read_header`'s loop. -/
inductive HeaderLine where
  | shape : List ℤ → HeaderLine
  | spacing : List ℚ → HeaderLine
  | origin : List ℚ → HeaderLine
  | fields : List (List Char) → HeaderLine
  | numdata : ℤ → HeaderLine
  | format : List Char → HeaderLine
  | skip : HeaderLine
deriving DecidableEq

/-- `read_shape`: `tuple(int(v) for v in line.split()[1:3])`. -/
def read_shape (line : List Char) : Option (List ℤ) :=
  (((pySplit line).drop 1).take 2).mapM pyInt

/-- `read_spacing` (also used for ORIGIN):
`tuple(float(v) for v in line.split()[1:3])`. -/
def read_spacing (line : List Char) : Option (List ℚ) :=
  (((pySplit line).drop 1).take 2).mapM pyFloat

/-- `read_num_values`: `int(line.split()[1].strip())`; `none` models
the IndexError on a missing argument and the ValueError of `int`. -/
def read_num_values (line : List Char) : Option ℤ :=
  match (pySplit line).drop 1 with
  | [] => none
  | t :: _ => pyInt (pyStrip t)

/-- `read_format`: `line.lstrip("FORMAT").strip()` — note that
`lstrip` strips a character SET, not the literal prefix. -/
def read_format (line : List Char) : List Char :=
  pyStrip (pyLstripSet ['F', 'O', 'R', 'M', 'A', 'T'] line)

/-- `parse_field_labels`: `line.split()[1:]`. -/
def parse_field_labels (line : List Char) : List (List Char) :=
  (pySplit line).drop 1

/-- One iteration of `_read_header`'s loop: dispatch on the upper-cased
first token of the line and extract that keyword's arguments; `none`
models an exception (empty line indexing, int/float conversion). -/
def parse_header_line (line : List Char) : Option HeaderLine :=
  match pySplit line with
  | [] => none
  | tok :: _ =>
    let t := pyUpper tok
    if t = "SHAPE".toList then (read_shape line).map HeaderLine.shape
    else if t = "SPACING".toList then (read_spacing line).map HeaderLine.spacing
    else if t = "ORIGIN".toList then (read_spacing line).map HeaderLine.origin
    else if t = "FIELDS".toList then some (HeaderLine.fields (parse_field_labels line))
    else if t = "NUMDATA".toList then (read_num_values line).map HeaderLine.numdata
    else if t = "FORMAT".toList then some (HeaderLine.format (read_format line))
    else some HeaderLine.skip

/-! ### Helper lemmas -/

/-- The value of field `l` of the structured array `d` at flat bin
index `i` (0 outside the array or for a missing field). -/
def col (d : FlowData) (l : String) (i : Nat) : ℚ := ((d.lookup l).getD []).getD i 0

theorem applyMask_cons_true {α : Type} (ms : List Bool) (x : α) (xs : List α) :
    applyMask (true :: ms) (x :: xs) = x :: applyMask ms xs := rfl

theorem applyMask_cons_false {α : Type} (ms : List Bool) (x : α) (xs : List α) :
    applyMask (false :: ms) (x :: xs) = applyMask ms xs := rfl

theorem applyMask_map_map {α β : Type} (g : α → Bool) (F : α → β) (l : List α) :
    applyMask (l.map g) (l.map F) = (l.filter g).map F := by
  induction l with
  | nil => rfl
  | cons a t ih =>
    cases hga : g a with
    | true =>
      simp only [List.map_cons, hga, List.filter_cons, if_pos trivial,
        applyMask_cons_true, ih, List.map_cons]
    | false =>
      simp only [List.map_cons, hga, List.filter_cons, applyMask_cons_false, ih,
        Bool.false_eq_true, if_false]

theorem list_eq_map_range {α : Type} (xs : List α) (d : α) :
    xs = (List.range xs.length).map (fun i => xs.getD i d) := by
  induction xs with
  | nil => rfl
  | cons a t ih =>
    simp only [List.length_cons, List.range_succ_eq_map, List.map_cons, List.getD_cons_zero,
      List.map_map]
    refine congrArg (a :: ·) ?_
    conv_lhs => rw [ih]
    exact List.map_congr_left fun i _ => rfl

theorem applyMask_length {α : Type} (mask : List Bool) (xs : List α)
    (h : mask.length = xs.length) : (applyMask mask xs).length = mask.countP (fun b => b) := by
  induction mask generalizing xs with
  | nil => simp [applyMask]
  | cons b t ih =>
    cases xs with
    | nil => simp at h
    | cons x xt =>
      cases b with
      | true => simpa [applyMask] using ih xt (by simpa using h)
      | false => simpa [applyMask] using ih xt (by simpa using h)

theorem getD_set_ne (l : List ℚ) (i j : Nat) (v : ℚ) (h : i ≠ j) :
    (l.set i v).getD j 0 = l.getD j 0 := by
  simp [List.getD_eq_getElem?_getD, List.getElem?_set_ne h]

theorem getD_set_self (l : List ℚ) (i : Nat) (v : ℚ) (h : i < l.length) :
    (l.set i v).getD i 0 = v := by
  simp [List.getD_eq_getElem?_getD, List.getElem?_set_self, h]

theorem foldl_set_getD_not_mem (ps : List (Nat × ℚ)) (base : List ℚ) (k : Nat)
    (h : ∀ p ∈ ps, p.1 ≠ k) :
    ((ps.foldl (fun acc p => acc.set p.1 p.2) base).getD k 0) = base.getD k 0 := by
  induction ps generalizing base with
  | nil => rfl
  | cons a t ih =>
    rw [List.foldl_cons, ih _ (fun p hp => h p (List.mem_cons_of_mem a hp))]
    exact getD_set_ne _ _ _ _ (h a (List.mem_cons_self a t))

theorem foldl_set_length (ps : List (Nat × ℚ)) (base : List ℚ) :
    (ps.foldl (fun acc p => acc.set p.1 p.2) base).length = base.length := by
  induction ps generalizing base with
  | nil => rfl
  | cons a t ih => rw [List.foldl_cons, ih, List.length_set]

theorem scatter_length (ny : Nat) (base : List ℚ) (ixs iys : List Nat) (vals : List ℚ) :
    (scatter ny base ixs iys vals).length = base.length := by
  unfold scatter
  generalize (ixs.zip iys).zip vals = L
  induction L generalizing base with
  | nil => rfl
  | cons a t ih => rw [List.foldl_cons, ih, List.length_set]

theorem scatter_nil (ny : Nat) (base : List ℚ) (iys : List Nat) (vals : List ℚ) :
    scatter ny base [] iys vals = base := rfl

theorem scatter_cons (ny : Nat) (base : List ℚ) (ix iy : Nat) (v : ℚ)
    (ixs iys : List Nat) (vals : List ℚ) :
    scatter ny base (ix :: ixs) (iy :: iys) (v :: vals) =
      scatter ny (base.set (ix * ny + iy) v) ixs iys vals := rfl

theorem pos_div_mod (ny i : Nat) : (i / ny) * ny + i % ny = i := by
  rw [Nat.mul_comm]
  exact Nat.div_add_mod i ny

/-- Scattering values back to positions recovered from their own
div/mod decomposition: each index in `S` receives its value, every
other position keeps its base value. -/
theorem scatter_self_indices (ny : Nat) (S : List Nat) (vf : Nat → ℚ) (base : List ℚ)
    (hnd : S.Nodup) (k : Nat) (hk : k < base.length) :
    (scatter ny base (S.map (fun i => i / ny)) (S.map (fun i => i % ny))
      (S.map vf)).getD k 0 = if k ∈ S then vf k else base.getD k 0 := by
  induction S generalizing base with
  | nil => simp [scatter_nil]
  | cons a t ih =>
    rw [List.map_cons, List.map_cons, List.map_cons, scatter_cons, pos_div_mod]
    rw [List.nodup_cons] at hnd
    by_cases hka : k = a
    · subst hka
      rw [if_pos (List.mem_cons_self k t)]
      rw [ih _ hnd.2 (by rw [List.length_set]; exact hk)]
      rw [if_neg hnd.1]
      exact getD_set_self _ _ _ hk
    · rw [ih _ hnd.2 (by rw [List.length_set]; exact hk)]
      by_cases hkt : k ∈ t
      · rw [if_pos hkt, if_pos (List.mem_cons_of_mem a hkt)]
      · rw [if_neg hkt, if_neg (by simp [List.mem_cons, hka, hkt])]
        exact getD_set_ne _ _ _ _ (Ne.symm hka)

/-- The scatter step of the reader on index/value columns obtained by
filtering the flat range by a predicate `P`: bins selected by `P` get
their value, all other bins stay zero. -/
theorem scatter_filter_range (n ny : Nat) (P : Nat → Bool) (vf : Nat → ℚ) (k : Nat)
    (hk : k < n) :
    (scatter ny (List.replicate n 0)
      (((List.range n).filter P).map (fun i => i / ny))
      (((List.range n).filter P).map (fun i => i % ny))
      (((List.range n).filter P).map vf)).getD k 0 = if P k then vf k else 0 := by
  rw [scatter_self_indices ny _ vf _ ((List.nodup_range n).filter P) k
    (by rw [List.length_replicate]; exact hk)]
  have hrepl : (List.replicate n (0 : ℚ)).getD k 0 = 0 := by
    simp [List.getD_eq_getElem?_getD, List.getElem?_replicate, hk]
  by_cases hPk : P k
  · rw [if_pos (List.mem_filter.mpr ⟨List.mem_range.mpr hk, hPk⟩), if_pos hPk]
  · rw [if_neg (fun hmem => hPk (List.mem_filter.mp hmem).2), if_neg hPk, hrepl]

theorem getD_map_range {α : Type} (n k : ℕ) (F : ℕ → α) (d : α) (hk : k < n) :
    (((List.range n).map F).getD k d) = F k := by
  rw [List.getD_eq_getElem?_getD, List.getElem?_map]
  simp [List.getElem?_range, hk]

theorem mask_of_column (msv : List ℚ) (n : ℕ) (hlen : msv.length = n) :
    msv.map (fun m => m != 0) = (List.range n).map (fun i => msv.getD i 0 != 0) := by
  conv_lhs => rw [list_eq_map_range msv 0]
  rw [List.map_map, hlen]
  rfl

theorem applyMask_keep_eq {α : Type} (msv : List ℚ) (xs : List α) (F : ℕ → α) (n : ℕ)
    (hlen : msv.length = n) (hxs : xs = (List.range n).map F) :
    applyMask (msv.map (fun m => m != 0)) xs =
      ((List.range n).filter (fun i => msv.getD i 0 != 0)).map F := by
  subst hxs
  rw [mask_of_column msv n hlen, applyMask_map_map]

theorem countP_keep_eq (msv : List ℚ) :
    (msv.map (fun m => m != 0)).countP (fun b => b) = msv.countP (fun m => m != 0) := by
  rw [List.countP_map]
  rfl

theorem countP_range_getD (msv : List ℚ) (n : ℕ) (hlen : msv.length = n) (p : ℚ → Bool) :
    (List.range n).countP (fun i => p (msv.getD i 0)) = msv.countP p := by
  conv_rhs => rw [list_eq_map_range msv 0]
  rw [List.countP_map, hlen]
  rfl

/-- Characterization of a successful `write_flow`: with all mandatory
columns present and the mass column matching the declared shape, the
writer emits exactly the bins with nonzero mass, in flat row-major
order, with NUMDATA their count. -/
theorem write_flow_spec (f : GmxFlow) (nx ny : ℕ)
    (xv yv nsv tsv msv usv vsv : List ℚ)
    (hs : f.shape = ((nx : ℤ), (ny : ℤ)))
    (hX : f.data.lookup "X" = some xv) (hY : f.data.lookup "Y" = some yv)
    (hN : f.data.lookup "N" = some nsv) (hT : f.data.lookup "T" = some tsv)
    (hM : f.data.lookup "M" = some msv) (hU : f.data.lookup "U" = some usv)
    (hV : f.data.lookup "V" = some vsv)
    (hlM : msv.length = nx * ny) (hlN : nsv.length = nx * ny)
    (hlT : tsv.length = nx * ny) (hlU : usv.length = nx * ny)
    (hlV : vsv.length = nx * ny) :
    write_flow f = some ⟨
      (if f.version = 1 then "GMX_FLOW_1" else "GMX_FLOW_2"),
      f.origin, f.shape, f.spacing,
      msv.countP (fun m => m != 0),
      ((List.range (nx * ny)).filter (fun i => msv.getD i 0 != 0)).map (fun i => i / ny),
      ((List.range (nx * ny)).filter (fun i => msv.getD i 0 != 0)).map (fun i => i % ny),
      [("N", ((List.range (nx * ny)).filter (fun i => msv.getD i 0 != 0)).map
          (fun i => nsv.getD i 0)),
       ("T", ((List.range (nx * ny)).filter (fun i => msv.getD i 0 != 0)).map
          (fun i => tsv.getD i 0)),
       ("M", ((List.range (nx * ny)).filter (fun i => msv.getD i 0 != 0)).map
          (fun i => msv.getD i 0)),
       ("U", ((List.range (nx * ny)).filter (fun i => msv.getD i 0 != 0)).map
          (fun i => usv.getD i 0)),
       ("V", ((List.range (nx * ny)).filter (fun i => msv.getD i 0 != 0)).map
          (fun i => vsv.getD i 0))]⟩ := by
  have hall : (["X", "Y", "N", "T", "M", "U", "V"].all
      (fun l => (f.data.lookup l).isSome)) = true := by
    simp [hX, hY, hN, hT, hM, hU, hV]
  have hkeep : (msv.map (fun m => m != 0)).length = f.shape.1.toNat * f.shape.2.toNat := by
    rw [List.length_map, hlM, hs]
    simp
  unfold write_flow
  rw [hall, hM]
  simp only [if_true]
  rw [if_pos hkeep]
  have hnx : f.shape.1.toNat = nx := by rw [hs]; simp
  have hny : f.shape.2.toNat = ny := by rw [hs]; simp
  refine congrArg some ?_
  refine FlowFile.mk.injEq .. ▸ ?_
  refine ⟨rfl, rfl, rfl, rfl, ?_, ?_, ?_, ?_⟩
  · rw [countP_keep_eq]
  · rw [hnx, hny, applyMask_keep_eq msv _ _ (nx * ny) hlM rfl]
  · rw [hnx, hny, applyMask_keep_eq msv _ _ (nx * ny) hlM rfl]
  · have hxs_of : ∀ v : List ℚ, v.length = nx * ny →
        v = (List.range (nx * ny)).map (fun i => v.getD i 0) := by
      intro v hv
      rw [← hv]
      exact list_eq_map_range v 0
    simp only [List.map_cons, List.map_nil, hN, hT, hM, hU, hV, Option.getD_some]
    rw [applyMask_keep_eq msv nsv _ (nx * ny) hlM (hxs_of nsv hlN),
      applyMask_keep_eq msv tsv _ (nx * ny) hlM (hxs_of tsv hlT),
      applyMask_keep_eq msv msv _ (nx * ny) hlM (hxs_of msv hlM),
      applyMask_keep_eq msv usv _ (nx * ny) hlM (hxs_of usv hlU),
      applyMask_keep_eq msv vsv _ (nx * ny) hlM (hxs_of vsv hlV)]
    simp [to_f32, List.map_map]

theorem mkGmxFlow_eq_some (data : FlowData) (shape : ℤ × ℤ) (spacing : ℚ × ℚ)
    (version : Nat) (origin : ℚ × ℚ)
    (h1 : 0 ≤ shape.1) (h2 : 0 ≤ shape.2)
    (h3 : ∀ p ∈ data, p.2.length = shape.1.toNat * shape.2.toNat) :
    mkGmxFlow data shape spacing version origin =
      some ⟨data, 2, shape, spacing, origin, version, data, shape⟩ := by
  unfold mkGmxFlow
  rw [if_pos ⟨h1, h2, by
    rw [List.all_eq_true]
    intro p hp
    exact decide_eq_true (h3 p hp)⟩]

/-- Characterization of a successful `read_flow` on a well-formed
file: the version is resolved from the FORMAT value, coordinates are
regenerated analytically, and each data column is the zero grid with
the sparse records scattered in. -/
theorem read_flow_spec (file : FlowFile) (nx ny : ℕ) (nsv tsv msv usv vsv : List ℚ)
    (hfmt : file.format = "GMX_FLOW_1" ∨ file.format = "GMX_FLOW_2")
    (hs : file.shape = ((nx : ℤ), (ny : ℤ)))
    (hfv : file.field_vals = [("N", nsv), ("T", tsv), ("M", msv), ("U", usv), ("V", vsv)])
    (hndx : file.numdata = file.ixs.length) (hndy : file.numdata = file.iys.length)
    (hlN : file.numdata = nsv.length) (hlT : file.numdata = tsv.length)
    (hlM : file.numdata = msv.length) (hlU : file.numdata = usv.length)
    (hlV : file.numdata = vsv.length)
    (hbx : ∀ a ∈ file.ixs, a < nx) (hby : ∀ b ∈ file.iys, b < ny) :
    read_flow file = some ⟨
      [("X", (List.range (nx * ny)).map
          (fun i => qadd file.origin.1 (qmul file.spacing.1 (qadd ((i / ny : ℕ) : ℚ) qhalf)))),
       ("Y", (List.range (nx * ny)).map
          (fun i => qadd file.origin.2 (qmul file.spacing.2 (qadd ((i % ny : ℕ) : ℚ) qhalf)))),
       ("N", scatter_field ny (nx * ny) file.ixs file.iys nsv),
       ("T", scatter_field ny (nx * ny) file.ixs file.iys tsv),
       ("M", scatter_field ny (nx * ny) file.ixs file.iys msv),
       ("U", scatter_field ny (nx * ny) file.ixs file.iys usv),
       ("V", scatter_field ny (nx * ny) file.ixs file.iys vsv)],
      2, file.shape, file.spacing, file.origin,
      (if file.format = "GMX_FLOW_1" then 1 else 2),
      [("X", (List.range (nx * ny)).map
          (fun i => qadd file.origin.1 (qmul file.spacing.1 (qadd ((i / ny : ℕ) : ℚ) qhalf)))),
       ("Y", (List.range (nx * ny)).map
          (fun i => qadd file.origin.2 (qmul file.spacing.2 (qadd ((i % ny : ℕ) : ℚ) qhalf)))),
       ("N", scatter_field ny (nx * ny) file.ixs file.iys nsv),
       ("T", scatter_field ny (nx * ny) file.ixs file.iys tsv),
       ("M", scatter_field ny (nx * ny) file.ixs file.iys msv),
       ("U", scatter_field ny (nx * ny) file.ixs file.iys usv),
       ("V", scatter_field ny (nx * ny) file.ixs file.iys vsv)],
      file.shape⟩ := by
  have hnx : file.shape.1.toNat = nx := by rw [hs]; simp
  have hny : file.shape.2.toNat = ny := by rw [hs]; simp
  have hnn : 0 ≤ file.shape.1 ∧ 0 ≤ file.shape.2 := by
    rw [hs]
    exact ⟨Int.ofNat_nonneg nx, Int.ofNat_nonneg ny⟩
  have hlook : file.field_vals.lookup "N" = some nsv ∧ file.field_vals.lookup "T" = some tsv ∧
      file.field_vals.lookup "M" = some msv ∧ file.field_vals.lookup "U" = some usv ∧
      file.field_vals.lookup "V" = some vsv := by
    rw [hfv]
    refine ⟨rfl, rfl, rfl, rfl, rfl⟩
  have hlen : file.numdata ≤ file.ixs.length ∧ file.numdata ≤ file.iys.length ∧
      file.numdata ≤ nsv.length ∧ file.numdata ≤ tsv.length ∧ file.numdata ≤ msv.length ∧
      file.numdata ≤ usv.length ∧ file.numdata ≤ vsv.length := by
    omega
  have htx : file.ixs.take file.numdata = file.ixs := List.take_of_length_le (le_of_eq hndx.symm)
  have hty : file.iys.take file.numdata = file.iys := List.take_of_length_le (le_of_eq hndy.symm)
  have hbnd : (file.ixs.take file.numdata).all (fun a => decide (a < file.shape.1.toNat)) = true ∧
      (file.iys.take file.numdata).all (fun b => decide (b < file.shape.2.toNat)) = true := by
    constructor
    · rw [htx, List.all_eq_true]
      intro a ha
      rw [hnx]
      exact decide_eq_true (hbx a ha)
    · rw [hty, List.all_eq_true]
      intro b hb
      rw [hny]
      exact decide_eq_true (hby b hb)
  have hver : (if file.format = "GMX_FLOW_1" then some 1
      else if file.format = "GMX_FLOW_2" then some 2 else none) =
      some (if file.format = "GMX_FLOW_1" then 1 else 2) := by
    rcases hfmt with h | h
    · rw [h]
      simp
    · rw [h]
      simp
  unfold read_flow
  rw [hver]
  simp only []
  rw [if_pos hnn, hlook.1, hlook.2.1, hlook.2.2.1, hlook.2.2.2.1, hlook.2.2.2.2]
  simp only []
  rw [if_pos hlen]
  rw [htx, hty] at hbnd ⊢
  rw [if_pos hbnd]
  rw [hnx, hny]
  rw [List.take_of_length_le (le_of_eq hlN.symm), List.take_of_length_le (le_of_eq hlT.symm),
    List.take_of_length_le (le_of_eq hlM.symm), List.take_of_length_le (le_of_eq hlU.symm),
    List.take_of_length_le (le_of_eq hlV.symm)]
  refine mkGmxFlow_eq_some _ _ _ _ _ hnn.1 hnn.2 ?_
  intro p hp
  rw [hnx, hny]
  have hsc : ∀ v : List ℚ,
      (scatter_field ny (nx * ny) file.ixs file.iys v).length = nx * ny := by
    intro v
    rw [scatter_field, scatter_length, List.length_replicate]
  simp only [List.mem_cons, List.not_mem_nil, or_false] at hp
  rcases hp with rfl | rfl | rfl | rfl | rfl | rfl | rfl
  · simp
  · simp
  · exact hsc nsv
  · exact hsc tsv
  · exact hsc msv
  · exact hsc usv
  · exact hsc vsv

/-! ### Claim C1 -/

/-- C1: for every flow field with all mandatory fields (X, Y, N, T, M,
U, V), a positive shape and grid-consistent bin-center coordinates,
decoding the bytes produced by encoding yields a flow field that
agrees with the original on every field of every bin whose mass is
nonzero (bit-exactly, at float32 precision), while zero-mass bins are
omitted from the payload and are reconstructed with all data fields
zero. -/
theorem C1_encode_decode_roundtrip (f : GmxFlow) (nx ny : ℕ)
    (xv yv nsv tsv msv usv vsv : List ℚ)
    (hnx : 0 < nx) (hny : 0 < ny)
    (hs : f.shape = ((nx : ℤ), (ny : ℤ)))
    (hv : f.version = 1 ∨ f.version = 2)
    (hX : f.data.lookup "X" = some xv) (hY : f.data.lookup "Y" = some yv)
    (hN : f.data.lookup "N" = some nsv) (hT : f.data.lookup "T" = some tsv)
    (hM : f.data.lookup "M" = some msv) (hU : f.data.lookup "U" = some usv)
    (hV : f.data.lookup "V" = some vsv)
    (hXval : xv = (List.range (nx * ny)).map
      (fun i => f.origin.1 + f.spacing.1 * (((i / ny : ℕ) : ℚ) + 1/2)))
    (hYval : yv = (List.range (nx * ny)).map
      (fun i => f.origin.2 + f.spacing.2 * (((i % ny : ℕ) : ℚ) + 1/2)))
    (hlM : msv.length = nx * ny) (hlN : nsv.length = nx * ny)
    (hlT : tsv.length = nx * ny) (hlU : usv.length = nx * ny)
    (hlV : vsv.length = nx * ny) :
    ∃ file g, write_flow f = some file ∧ read_flow file = some g ∧
      (∀ l ∈ ["X", "Y", "N", "T", "M", "U", "V"], ∀ k < nx * ny,
        msv.getD k 0 ≠ 0 → col g.data l k = col f.data l k) ∧
      (∀ l ∈ ["N", "T", "M", "U", "V"], ∀ k < nx * ny,
        msv.getD k 0 = 0 → col g.data l k = 0) := by
  have hfile := write_flow_spec f nx ny xv yv nsv tsv msv usv vsv hs hX hY hN hT hM hU hV
    hlM hlN hlT hlU hlV
  have hSlen : ((List.range (nx * ny)).filter (fun i => msv.getD i 0 != 0)).length =
      msv.countP (fun m => m != 0) := by
    rw [← List.countP_eq_length_filter]
    exact countP_range_getD msv (nx * ny) hlM (fun m => m != 0)
  have hmemS : ∀ i ∈ (List.range (nx * ny)).filter (fun i => msv.getD i 0 != 0),
      i < nx * ny := by
    intro i hi
    exact List.mem_range.mp (List.mem_filter.mp hi).1
  have hread := read_flow_spec
    ⟨(if f.version = 1 then "GMX_FLOW_1" else "GMX_FLOW_2"),
      f.origin, f.shape, f.spacing,
      msv.countP (fun m => m != 0),
      ((List.range (nx * ny)).filter (fun i => msv.getD i 0 != 0)).map (fun i => i / ny),
      ((List.range (nx * ny)).filter (fun i => msv.getD i 0 != 0)).map (fun i => i % ny),
      [("N", ((List.range (nx * ny)).filter (fun i => msv.getD i 0 != 0)).map
          (fun i => nsv.getD i 0)),
       ("T", ((List.range (nx * ny)).filter (fun i => msv.getD i 0 != 0)).map
          (fun i => tsv.getD i 0)),
       ("M", ((List.range (nx * ny)).filter (fun i => msv.getD i 0 != 0)).map
          (fun i => msv.getD i 0)),
       ("U", ((List.range (nx * ny)).filter (fun i => msv.getD i 0 != 0)).map
          (fun i => usv.getD i 0)),
       ("V", ((List.range (nx * ny)).filter (fun i => msv.getD i 0 != 0)).map
          (fun i => vsv.getD i 0))]⟩
    nx ny _ _ _ _ _
    (by
      rcases hv with h | h
      · left
        simp [h]
      · right
        rw [if_neg]
        rw [h]
        decide)
    hs rfl
    (by rw [List.length_map]; exact hSlen.symm) (by rw [List.length_map]; exact hSlen.symm)
    (by rw [List.length_map]; exact hSlen.symm) (by rw [List.length_map]; exact hSlen.symm)
    (by rw [List.length_map]; exact hSlen.symm) (by rw [List.length_map]; exact hSlen.symm)
    (by rw [List.length_map]; exact hSlen.symm)
    (by
      intro a ha
      rcases List.mem_map.mp ha with ⟨i, hi, rfl⟩
      have := hmemS i hi
      rw [Nat.mul_comm] at this
      exact Nat.div_lt_of_lt_mul this)
    (by
      intro b hb
      rcases List.mem_map.mp hb with ⟨i, hi, rfl⟩
      exact Nat.mod_lt _ hny)
  refine ⟨_, _, hfile, hread, ?_, ?_⟩
  · intro l hl k hk hmk
    have hx_eq : (fun i : ℕ => qadd f.origin.1 (qmul f.spacing.1 (qadd ((i / ny : ℕ) : ℚ) qhalf)))
        = fun i : ℕ => f.origin.1 + f.spacing.1 * (((i / ny : ℕ) : ℚ) + 1/2) := by
      funext i
      rw [qadd_eq, qmul_eq, qadd_eq, qhalf_eq]
    have hy_eq : (fun i : ℕ => qadd f.origin.2 (qmul f.spacing.2 (qadd ((i % ny : ℕ) : ℚ) qhalf)))
        = fun i : ℕ => f.origin.2 + f.spacing.2 * (((i % ny : ℕ) : ℚ) + 1/2) := by
      funext i
      rw [qadd_eq, qmul_eq, qadd_eq, qhalf_eq]
    have hmk' : (msv.getD k 0 != 0) = true := bne_iff_ne.mpr hmk
    simp only [List.mem_cons, List.not_mem_nil, or_false] at hl
    rcases hl with rfl | rfl | rfl | rfl | rfl | rfl | rfl
    · show (((List.range (nx * ny)).map _).getD k 0) = col f.data "X" k
      rw [col, hX, Option.getD_some, hXval, getD_map_range _ _ _ _ hk,
        getD_map_range _ _ _ _ hk, qadd_eq, qmul_eq, qadd_eq, qhalf_eq]
    · show (((List.range (nx * ny)).map _).getD k 0) = col f.data "Y" k
      rw [col, hY, Option.getD_some, hYval, getD_map_range _ _ _ _ hk,
        getD_map_range _ _ _ _ hk, qadd_eq, qmul_eq, qadd_eq, qhalf_eq]
    · show ((scatter_field ny (nx * ny) _ _ _).getD k 0) = col f.data "N" k
      rw [col, hN, Option.getD_some, scatter_field,
        scatter_filter_range (nx * ny) ny _ _ k hk, if_pos hmk']
    · show ((scatter_field ny (nx * ny) _ _ _).getD k 0) = col f.data "T" k
      rw [col, hT, Option.getD_some, scatter_field,
        scatter_filter_range (nx * ny) ny _ _ k hk, if_pos hmk']
    · show ((scatter_field ny (nx * ny) _ _ _).getD k 0) = col f.data "M" k
      rw [col, hM, Option.getD_some, scatter_field,
        scatter_filter_range (nx * ny) ny _ _ k hk, if_pos hmk']
    · show ((scatter_field ny (nx * ny) _ _ _).getD k 0) = col f.data "U" k
      rw [col, hU, Option.getD_some, scatter_field,
        scatter_filter_range (nx * ny) ny _ _ k hk, if_pos hmk']
    · show ((scatter_field ny (nx * ny) _ _ _).getD k 0) = col f.data "V" k
      rw [col, hV, Option.getD_some, scatter_field,
        scatter_filter_range (nx * ny) ny _ _ k hk, if_pos hmk']
  · intro l hl k hk hmk
    have hmk' : ¬((msv.getD k 0 != 0) = true) := by
      rw [bne_iff_ne]
      exact not_ne_iff.mpr hmk
    simp only [List.mem_cons, List.not_mem_nil, or_false] at hl
    rcases hl with rfl | rfl | rfl | rfl | rfl
    · show ((scatter_field ny (nx * ny) _ _ _).getD k 0) = 0
      rw [scatter_field, scatter_filter_range (nx * ny) ny _ _ k hk, if_neg hmk']
    · show ((scatter_field ny (nx * ny) _ _ _).getD k 0) = 0
      rw [scatter_field, scatter_filter_range (nx * ny) ny _ _ k hk, if_neg hmk']
    · show ((scatter_field ny (nx * ny) _ _ _).getD k 0) = 0
      rw [scatter_field, scatter_filter_range (nx * ny) ny _ _ k hk, if_neg hmk']
    · show ((scatter_field ny (nx * ny) _ _ _).getD k 0) = 0
      rw [scatter_field, scatter_filter_range (nx * ny) ny _ _ k hk, if_neg hmk']
    · show ((scatter_field ny (nx * ny) _ _ _).getD k 0) = 0
      rw [scatter_field, scatter_filter_range (nx * ny) ny _ _ k hk, if_neg hmk']

/-- The worked example of the format documentation: a 2×2 grid with
unit spacing, origin (0,0), version 1, and a single nonzero bin at
grid position (1, 0) (flat index 2) with N=10, T=300, M=4, U=1/2,
V=-1/2. -/
def c1data : FlowData :=
  [("X", (List.range (2 * 2)).map (fun i => (0 : ℚ) + 1 * (((i / 2 : ℕ) : ℚ) + 1/2))),
   ("Y", (List.range (2 * 2)).map (fun i => (0 : ℚ) + 1 * (((i % 2 : ℕ) : ℚ) + 1/2))),
   ("N", [0, 0, 10, 0]), ("T", [0, 0, 300, 0]), ("M", [0, 0, 4, 0]),
   ("U", [0, 0, qhalf, 0]), ("V", [0, 0, -qhalf, 0])]

/-- The example flow field holding `c1data` with an unfiltered view. -/
def c1flow : GmxFlow := ⟨c1data, 2, (2, 2), (1, 1), (0, 0), 1, c1data, (2, 2)⟩

theorem C1_encode_decode_roundtrip_witness :
    ∃ file g, write_flow c1flow = some file ∧ read_flow file = some g ∧
      (∀ l ∈ ["X", "Y", "N", "T", "M", "U", "V"], ∀ k < 2 * 2,
        ([0, 0, 4, 0] : List ℚ).getD k 0 ≠ 0 → col g.data l k = col c1flow.data l k) ∧
      (∀ l ∈ ["N", "T", "M", "U", "V"], ∀ k < 2 * 2,
        ([0, 0, 4, 0] : List ℚ).getD k 0 = 0 → col g.data l k = 0) :=
  C1_encode_decode_roundtrip c1flow 2 2 _ _ [0, 0, 10, 0] [0, 0, 300, 0] [0, 0, 4, 0]
    [0, 0, qhalf, 0] [0, 0, -qhalf, 0]
    (by decide) (by decide) rfl (Or.inl rfl) rfl rfl rfl rfl rfl rfl rfl rfl rfl
    rfl rfl rfl rfl rfl

/-! ### Claim C3 -/

/-- Inversion of a successful decode: whatever the payload contained,
the X and Y columns of the result are the analytically regenerated bin
centers, and the metadata is taken from the header. -/
theorem read_flow_coords (file : FlowFile) (g : GmxFlow) (h : read_flow file = some g) :
    g.data.lookup "X" = some ((List.range (file.shape.1.toNat * file.shape.2.toNat)).map
      (fun i => qadd file.origin.1
        (qmul file.spacing.1 (qadd ((i / file.shape.2.toNat : ℕ) : ℚ) qhalf)))) ∧
    g.data.lookup "Y" = some ((List.range (file.shape.1.toNat * file.shape.2.toNat)).map
      (fun i => qadd file.origin.2
        (qmul file.spacing.2 (qadd ((i % file.shape.2.toNat : ℕ) : ℚ) qhalf)))) ∧
    g.origin = file.origin ∧ g.spacing = file.spacing ∧ g.shape = file.shape := by
  unfold read_flow at h
  repeat' first | exact Option.noConfusion h | split at h | dsimp only at h
  all_goals
    unfold mkGmxFlow at h
  all_goals
    split at h
  all_goals
    first
      | exact Option.noConfusion h
      | (injection h with h
         subst h
         exact ⟨rfl, rfl, rfl, rfl, rfl⟩)

/-- C3: after every successful decode with header origin (x0, y0),
spacing (dx, dy) and shape (nx, ny), the coordinate columns satisfy
`X[ix,iy] = x0 + dx*(ix+1/2)` and `Y[ix,iy] = y0 + dy*(iy+1/2)`
exactly, for every bin, independently of which bins were present in
the sparse payload (no hypothesis constrains the payload). -/
theorem C3_decoded_coordinates_analytic (file : FlowFile) (g : GmxFlow) (nx ny : ℕ)
    (hs : file.shape = ((nx : ℤ), (ny : ℤ)))
    (h : read_flow file = some g) :
    ∀ ix iy, ix < nx → iy < ny →
      col g.data "X" (ix * ny + iy) = file.origin.1 + file.spacing.1 * ((ix : ℚ) + 1/2) ∧
      col g.data "Y" (ix * ny + iy) = file.origin.2 + file.spacing.2 * ((iy : ℚ) + 1/2) := by
  intro ix iy hx hy
  obtain ⟨hX, hY, -, -, -⟩ := read_flow_coords file g h
  have hnx : file.shape.1.toNat = nx := by rw [hs]; simp
  have hny : file.shape.2.toNat = ny := by rw [hs]; simp
  rw [hnx, hny] at hX hY
  have hk : ix * ny + iy < nx * ny := by
    calc ix * ny + iy < ix * ny + ny := by omega
    _ = (ix + 1) * ny := by ring
    _ ≤ nx * ny := Nat.mul_le_mul_right ny (by omega)
  have hdiv : (ix * ny + iy) / ny = ix := by
    rw [Nat.add_comm, Nat.add_mul_div_right iy ix (by omega : 0 < ny),
      Nat.div_eq_of_lt hy, Nat.zero_add]
  have hmod : (ix * ny + iy) % ny = iy := by
    rw [Nat.add_comm, Nat.add_mul_mod_self_right, Nat.mod_eq_of_lt hy]
  constructor
  · rw [col, hX, Option.getD_some, getD_map_range _ _ _ _ hk, hdiv,
      qadd_eq, qmul_eq, qadd_eq, qhalf_eq]
  · rw [col, hY, Option.getD_some, getD_map_range _ _ _ _ hk, hmod,
      qadd_eq, qmul_eq, qadd_eq, qhalf_eq]

/-- An empty (NUMDATA = 0) version-2 file on a 2×2 grid. -/
def c3file : FlowFile :=
  ⟨"GMX_FLOW_2", (0, 0), (2, 2), (1, 1), 0, [], [],
    [("N", []), ("T", []), ("M", []), ("U", []), ("V", [])]⟩

theorem C3_decoded_coordinates_analytic_witness :
    ∃ g, read_flow c3file = some g ∧ ∀ ix iy, ix < 2 → iy < 2 →
      col g.data "X" (ix * 2 + iy) = c3file.origin.1 + c3file.spacing.1 * ((ix : ℚ) + 1/2) ∧
      col g.data "Y" (ix * 2 + iy) = c3file.origin.2 + c3file.spacing.2 * ((iy : ℚ) + 1/2) := by
  obtain ⟨g, hg⟩ := Option.isSome_iff_exists.mp (by decide : (read_flow c3file).isSome)
  exact ⟨g, hg, fun ix iy hx hy =>
    C3_decoded_coordinates_analytic c3file g 2 2 rfl hg ix iy hx hy⟩

/-! ### Claim C4 -/

/-- C4: the writer excludes every bin whose M value is zero from the
sparse payload, whatever its other fields hold, and the NUMDATA count
is exactly the number of bins with nonzero M; the emitted index pairs
are precisely the flat-row-major positions of the nonzero-mass bins. -/
theorem C4_zero_mass_bins_excluded (f : GmxFlow) (nx ny : ℕ)
    (xv yv nsv tsv msv usv vsv : List ℚ)
    (hs : f.shape = ((nx : ℤ), (ny : ℤ)))
    (hX : f.data.lookup "X" = some xv) (hY : f.data.lookup "Y" = some yv)
    (hN : f.data.lookup "N" = some nsv) (hT : f.data.lookup "T" = some tsv)
    (hM : f.data.lookup "M" = some msv) (hU : f.data.lookup "U" = some usv)
    (hV : f.data.lookup "V" = some vsv)
    (hlM : msv.length = nx * ny) (hlN : nsv.length = nx * ny)
    (hlT : tsv.length = nx * ny) (hlU : usv.length = nx * ny)
    (hlV : vsv.length = nx * ny) :
    ∃ file, write_flow f = some file ∧
      file.numdata = msv.countP (fun m => m != 0) ∧
      file.ixs.zip file.iys = ((List.range (nx * ny)).filter
        (fun i => msv.getD i 0 != 0)).map (fun i => (i / ny, i % ny)) ∧
      ∀ ix iy, msv.getD (ix * ny + iy) 0 = 0 → (ix, iy) ∉ file.ixs.zip file.iys := by
  refine ⟨_, write_flow_spec f nx ny xv yv nsv tsv msv usv vsv hs hX hY hN hT hM hU hV
    hlM hlN hlT hlU hlV, rfl, ?_, ?_⟩
  · exact List.zip_map' (fun i => i / ny) (fun i => i % ny) _
  · intro ix iy hz hmem
    rw [List.zip_map' (fun i => i / ny) (fun i => i % ny) _] at hmem
    rcases List.mem_map.mp hmem with ⟨i, hiS, hpair⟩
    have hdm : i = ix * ny + iy := by
      have h1 : i / ny = ix := congrArg Prod.fst hpair
      have h2 : i % ny = iy := congrArg Prod.snd hpair
      rw [← h1, ← h2]
      exact (pos_div_mod ny i).symm
    have := (List.mem_filter.mp hiS).2
    rw [hdm, hz] at this
    simp at this

theorem C4_zero_mass_bins_excluded_witness :
    ∃ file, write_flow c1flow = some file ∧
      file.numdata = ([0, 0, 4, 0] : List ℚ).countP (fun m => m != 0) ∧
      file.ixs.zip file.iys = ((List.range (2 * 2)).filter
        (fun i => ([0, 0, 4, 0] : List ℚ).getD i 0 != 0)).map (fun i => (i / 2, i % 2)) ∧
      ∀ ix iy, ([0, 0, 4, 0] : List ℚ).getD (ix * 2 + iy) 0 = 0 →
        (ix, iy) ∉ file.ixs.zip file.iys :=
  C4_zero_mass_bins_excluded c1flow 2 2 _ _ [0, 0, 10, 0] [0, 0, 300, 0] [0, 0, 4, 0]
    [0, 0, qhalf, 0] [0, 0, -qhalf, 0]
    rfl rfl rfl rfl rfl rfl rfl rfl rfl rfl rfl rfl rfl

/-! ### Claim C9 -/

/-- C9: whenever the sparse payload contains an IX at least nx, or an
IY at least ny, among its NUMDATA records, decoding fails (numpy's
IndexError on the scatter assignment); no flow field is produced, so
no out-of-range record is ever silently written into another bin. -/
theorem C9_out_of_range_index_fails (file : FlowFile)
    (h : (∃ a ∈ file.ixs.take file.numdata, file.shape.1.toNat ≤ a) ∨
         (∃ b ∈ file.iys.take file.numdata, file.shape.2.toNat ≤ b)) :
    read_flow file = none := by
  unfold read_flow
  repeat' first | rfl | split | dsimp only
  all_goals
    rename_i hcond
  all_goals
    rcases h with ⟨a, ha, hge⟩ | ⟨b, hb, hge⟩
  all_goals
    first
      | exact absurd (of_decide_eq_true (List.all_eq_true.mp hcond.1 a ha)) (Nat.not_lt.mpr hge)
      | exact absurd (of_decide_eq_true (List.all_eq_true.mp hcond.2 b hb)) (Nat.not_lt.mpr hge)

/-- A file claiming shape 2×2 whose single record carries the
out-of-range bin index IX = 5. -/
def c9file : FlowFile :=
  ⟨"GMX_FLOW_1", (0, 0), (2, 2), (1, 1), 1, [5], [0],
    [("N", [1]), ("T", [1]), ("M", [1]), ("U", [1]), ("V", [1])]⟩

theorem C9_out_of_range_index_fails_witness :
    (∃ a ∈ c9file.ixs.take c9file.numdata, c9file.shape.1.toNat ≤ a) ∧
      read_flow c9file = none :=
  ⟨by decide, C9_out_of_range_index_fails c9file (Or.inl (by decide))⟩

/-! ### Claims C2, C6, C7 (the format converter)

A `GmxFlow` as constructed by `mkGmxFlow` (i.e. by decoding or
programmatic construction) satisfies the data-model invariant that the
live view is the full backing grid: `data = _backup_data`,
`shape = _backup_data.shape` and the view is 2-dimensional.  The
converter claims quantify over flow fields of that data model, so the
invariant appears as hypotheses. -/

theorem lookup_map_field_self (l : String) (g : ℚ → ℚ) (d : FlowData) :
    (map_field l g d).lookup l = (d.lookup l).map (List.map g) := by
  induction d with
  | nil => rfl
  | cons p t ih =>
    obtain ⟨k, v⟩ := p
    by_cases hp : k = l
    · rw [map_field, List.map_cons, if_pos hp, List.lookup_cons, List.lookup_cons,
        show (l == k) = true from beq_iff_eq.mpr hp.symm]
      rfl
    · rw [map_field, List.map_cons, if_neg hp, List.lookup_cons, List.lookup_cons,
        show (l == k) = false from beq_eq_false_iff_ne.mpr (fun hc => hp hc.symm)]
      exact ih

theorem lookup_map_field_ne (l l' : String) (g : ℚ → ℚ) (d : FlowData) (h : l' ≠ l) :
    (map_field l g d).lookup l' = d.lookup l' := by
  induction d with
  | nil => rfl
  | cons p t ih =>
    obtain ⟨k, v⟩ := p
    by_cases hp : k = l
    · rw [map_field, List.map_cons, if_pos hp, List.lookup_cons, List.lookup_cons,
        show (l' == k) = false from beq_eq_false_iff_ne.mpr (fun hc => h (hc.trans hp))]
      exact ih
    · rw [map_field, List.map_cons, if_neg hp, List.lookup_cons, List.lookup_cons]
      cases hl : (l' == k) with
      | true => rfl
      | false => exact ih

theorem map_field_absent (l : String) (g : ℚ → ℚ) (d : FlowData)
    (h : d.lookup l = none) : map_field l g d = d := by
  induction d with
  | nil => rfl
  | cons p t ih =>
    obtain ⟨k, v⟩ := p
    rw [List.lookup_cons] at h
    cases hl : (l == k) with
    | true => rw [hl] at h; exact Option.noConfusion h
    | false =>
      rw [hl] at h
      rw [map_field, List.map_cons,
        if_neg (fun hc => by
          rw [show k = l from hc, beq_self_eq_true] at hl
          exact Bool.noConfusion hl)]
      exact congrArg (List.cons (k, v)) (ih h)

/-- An unfiltered flow field (live view = backing grid) is a fixed
point of `copy`. -/
theorem copy_flow_of_unfiltered (f : GmxFlow)
    (hval : f.data = f.backup_data) (hshape : f.shape = f.backup_shape)
    (hdim : f.ndim = 2) : copy_flow f = f := by
  unfold copy_flow reset_view
  cases f
  simp_all

/-- C2: on a version-1 flow field (with the data-model invariant that
the live view is the full grid) and any width w, conversion divides
the M column elementwise by the bin volume dx*dy*w, flips the version
to 2, and leaves every other data column and the metadata (shape,
spacing, origin) unchanged. -/
theorem C2_convert_v1_divides_mass_by_bin_volume (f : GmxFlow) (w : ℚ) (msv : List ℚ)
    (hval : f.data = f.backup_data) (hshape : f.shape = f.backup_shape)
    (hdim : f.ndim = 2) (hv : f.version = 1)
    (hM : f.data.lookup "M" = some msv) :
    (convert_gmx_flow_1_to_2 f w).data.lookup "M" =
      some (msv.map (fun m => m / (f.spacing.1 * f.spacing.2 * w))) ∧
    (∀ l, l ≠ "M" → (convert_gmx_flow_1_to_2 f w).data.lookup l = f.data.lookup l) ∧
    (convert_gmx_flow_1_to_2 f w).version = 2 ∧
    (convert_gmx_flow_1_to_2 f w).shape = f.shape ∧
    (convert_gmx_flow_1_to_2 f w).spacing = f.spacing ∧
    (convert_gmx_flow_1_to_2 f w).origin = f.origin := by
  have hc : copy_flow f = f := copy_flow_of_unfiltered f hval hshape hdim
  unfold convert_gmx_flow_1_to_2
  rw [hc]
  dsimp only
  rw [hv, if_pos rfl]
  refine ⟨?_, ?_, rfl, rfl, rfl, rfl⟩
  · show (map_field "M" _ f.data).lookup "M" = _
    rw [lookup_map_field_self, hM]
    refine congrArg some ?_
    refine List.map_congr_left fun m _ => ?_
    rw [qdiv_eq, qmul_eq, qmul_eq]
  · intro l hl
    exact lookup_map_field_ne "M" l _ f.data hl

/-- The 2×2 version-1 example field with spacing (1,2) and a mass
column [1, 2, 3, 4]. -/
def c2flow : GmxFlow :=
  ⟨[("X", [qhalf, qhalf, Rat.divInt 3 2, Rat.divInt 3 2]),
    ("Y", [1, 3, 1, 3]), ("M", [1, 2, 3, 4])], 2, (2, 2), (1, 2), (0, 0), 1,
   [("X", [qhalf, qhalf, Rat.divInt 3 2, Rat.divInt 3 2]),
    ("Y", [1, 3, 1, 3]), ("M", [1, 2, 3, 4])], (2, 2)⟩

theorem C2_convert_v1_divides_mass_by_bin_volume_witness :
    c2flow.version = 1 ∧
    (convert_gmx_flow_1_to_2 c2flow 3).data.lookup "M" =
      some (([1, 2, 3, 4] : List ℚ).map
        (fun m => m / (c2flow.spacing.1 * c2flow.spacing.2 * 3))) ∧
    (∀ l, l ≠ "M" →
      (convert_gmx_flow_1_to_2 c2flow 3).data.lookup l = c2flow.data.lookup l) ∧
    (convert_gmx_flow_1_to_2 c2flow 3).version = 2 ∧
    (convert_gmx_flow_1_to_2 c2flow 3).shape = c2flow.shape :=
  have h := C2_convert_v1_divides_mass_by_bin_volume c2flow 3 [1, 2, 3, 4]
    rfl rfl rfl rfl rfl
  ⟨rfl, h.1, h.2.1, h.2.2.1, h.2.2.2.1⟩

/-- C6: converting a flow field that is already version 2 (with the
data-model invariant) returns it unchanged — an unmodified copy; in
this value-level model the deep copy is literally the same value, and
the source's `deepcopy` guarantees the absence of aliasing. -/
theorem C6_convert_v2_returns_unmodified_copy (f : GmxFlow) (w : ℚ)
    (hval : f.data = f.backup_data) (hshape : f.shape = f.backup_shape)
    (hdim : f.ndim = 2) (hv : f.version = 2) :
    convert_gmx_flow_1_to_2 f w = f := by
  have hc : copy_flow f = f := copy_flow_of_unfiltered f hval hshape hdim
  unfold convert_gmx_flow_1_to_2
  rw [hc]
  dsimp only
  rw [hv]
  rfl

/-- `c2flow` already converted to version 2 (its M column divided by
the bin volume 1*2*3 = 6). -/
def c6flow : GmxFlow := convert_gmx_flow_1_to_2 c2flow 3

theorem C6_convert_v2_returns_unmodified_copy_witness :
    c6flow.version = 2 ∧ convert_gmx_flow_1_to_2 c6flow 3 = c6flow :=
  ⟨rfl, C6_convert_v2_returns_unmodified_copy c6flow 3 rfl rfl rfl rfl⟩

/-- C7: converting a version-1 flow field whose data lacks the M
column (with the data-model invariant) does not raise: the KeyError is
caught, all data columns are returned unchanged, and the version still
flips to 2. -/
theorem C7_convert_without_mass_still_flips_version (f : GmxFlow) (w : ℚ)
    (hval : f.data = f.backup_data) (hshape : f.shape = f.backup_shape)
    (hdim : f.ndim = 2) (hv : f.version = 1)
    (hM : f.data.lookup "M" = none) :
    convert_gmx_flow_1_to_2 f w = { f with version := 2 } := by
  have hc : copy_flow f = f := copy_flow_of_unfiltered f hval hshape hdim
  unfold convert_gmx_flow_1_to_2
  rw [hc]
  dsimp only
  rw [hv, if_pos rfl, map_field_absent _ _ _ hM]
  cases f
  simp_all

/-- A version-1 field with no mass column. -/
def c7flow : GmxFlow :=
  ⟨[("X", [qhalf]), ("Y", [qhalf]), ("U", [7])], 2, (1, 1), (1, 1), (0, 0), 1,
   [("X", [qhalf]), ("Y", [qhalf]), ("U", [7])], (1, 1)⟩

theorem C7_convert_without_mass_still_flips_version_witness :
    c7flow.version = 1 ∧ c7flow.data.lookup "M" = none ∧
    convert_gmx_flow_1_to_2 c7flow 5 = { c7flow with version := 2 } :=
  ⟨rfl, rfl, C7_convert_without_mass_still_flips_version c7flow 5 rfl rfl rfl rfl rfl⟩

/-! ### Claim C5 (header keyword parsing) -/

theorem pySplitGo_token (t' : List Char) (cur rest : List Char) (hcur : cur ≠ [])
    (ht : ∀ c ∈ t', pyIsSpace c = false) :
    pySplitGo cur (t' ++ ' ' :: rest) = (cur.reverse ++ t') :: pySplitGo [] rest := by
  induction t' generalizing cur with
  | nil =>
    show pySplitGo cur (' ' :: rest) = (cur.reverse ++ []) :: pySplitGo [] rest
    rw [List.append_nil]
    simp only [pySplitGo, show pyIsSpace ' ' = true from rfl, if_true, if_neg hcur]
  | cons c t ih =>
    have hc : pyIsSpace c = false := ht c (List.mem_cons_self c t)
    rw [List.cons_append]
    simp only [pySplitGo, hc, Bool.false_eq_true, if_false]
    rw [ih (c :: cur) (by simp) (fun d hd => ht d (List.mem_cons_of_mem _ hd)),
      List.reverse_cons, List.append_assoc, List.singleton_append]

/-- `str.split()` peels off a leading whitespace-free token followed by
a space. -/
theorem pySplit_token (tok rest : List Char) (h1 : tok ≠ [])
    (h2 : ∀ c ∈ tok, pyIsSpace c = false) :
    pySplit (tok ++ ' ' :: rest) = tok :: pySplit rest := by
  cases tok with
  | nil => exact absurd rfl h1
  | cons c t =>
    unfold pySplit
    rw [List.cons_append]
    have hc : pyIsSpace c = false := h2 c (List.mem_cons_self c t)
    simp only [pySplitGo, hc, Bool.false_eq_true, if_false]
    rw [pySplitGo_token t [c] rest (by simp) (fun d hd => h2 d (List.mem_cons_of_mem _ hd))]
    rfl

/-- C5 (corrected): keyword dispatch is case-insensitive for every
recognized keyword, and argument extraction is independent of the
keyword's letter case for SHAPE, SPACING, ORIGIN, FIELDS and NUMDATA,
whose extractors work on the whitespace-split tokens after the
keyword.  The FORMAT value, however, is extracted with
`line.lstrip("FORMAT")`, i.e. by stripping the leading characters that
belong to the character set {F,O,R,M,A,T}: an uppercase `FORMAT`
keyword yields the bare stripped value, while any other case variant
is still dispatched as a FORMAT line but yields
`strip(lstrip("FORMAT", line))` of the whole line, which differs (see
the counterexample). -/
theorem C5_header_keyword_case_insensitive_amended :
    (∀ (kw rest : List Char) (K : String), kw ≠ [] →
      (∀ c ∈ kw, pyIsSpace c = false) → (∀ c ∈ kw, c.toNat < 128) →
      K ∈ (["SHAPE", "SPACING", "ORIGIN", "FIELDS", "NUMDATA"] : List String) →
      pyUpper kw = K.toList →
      parse_header_line (kw ++ ' ' :: rest) = parse_header_line (K.toList ++ ' ' :: rest)) ∧
    (∀ (kw rest : List Char), kw ≠ [] →
      (∀ c ∈ kw, pyIsSpace c = false) →
      pyUpper kw = "FORMAT".toList →
      parse_header_line (kw ++ ' ' :: rest) =
        some (HeaderLine.format (read_format (kw ++ ' ' :: rest)))) ∧
    (∀ v : List Char, pyStrip v = v → read_format ("FORMAT".toList ++ ' ' :: v) = v) := by
  refine ⟨?_, ?_, ?_⟩
  · intro kw rest K h1 h2 _ hK hup
    have hsplit1 := pySplit_token kw rest h1 h2
    simp only [List.mem_cons, List.not_mem_nil, or_false] at hK
    rcases hK with rfl | rfl | rfl | rfl | rfl
    · have hsplit2 := pySplit_token "SHAPE".toList rest (by decide) (by decide)
      unfold parse_header_line
      rw [hsplit1, hsplit2]
      dsimp only
      rw [hup, show pyUpper "SHAPE".toList = "SHAPE".toList from by decide,
        if_pos (show ("SHAPE".toList = "SHAPE".toList) from rfl)]
      unfold read_shape
      rw [hsplit1, hsplit2]
      rfl
    · have hsplit2 := pySplit_token "SPACING".toList rest (by decide) (by decide)
      unfold parse_header_line
      rw [hsplit1, hsplit2]
      dsimp only
      rw [hup, show pyUpper "SPACING".toList = "SPACING".toList from by decide,
        if_neg (show ¬("SPACING".toList = "SHAPE".toList) from by decide),
        if_pos (show ("SPACING".toList = "SPACING".toList) from rfl)]
      unfold read_spacing
      rw [hsplit1, hsplit2]
      rfl
    · have hsplit2 := pySplit_token "ORIGIN".toList rest (by decide) (by decide)
      unfold parse_header_line
      rw [hsplit1, hsplit2]
      dsimp only
      rw [hup, show pyUpper "ORIGIN".toList = "ORIGIN".toList from by decide,
        if_neg (show ¬("ORIGIN".toList = "SHAPE".toList) from by decide),
        if_neg (show ¬("ORIGIN".toList = "SPACING".toList) from by decide),
        if_pos (show ("ORIGIN".toList = "ORIGIN".toList) from rfl)]
      unfold read_spacing
      rw [hsplit1, hsplit2]
      rfl
    · have hsplit2 := pySplit_token "FIELDS".toList rest (by decide) (by decide)
      unfold parse_header_line
      rw [hsplit1, hsplit2]
      dsimp only
      rw [hup, show pyUpper "FIELDS".toList = "FIELDS".toList from by decide,
        if_neg (show ¬("FIELDS".toList = "SHAPE".toList) from by decide),
        if_neg (show ¬("FIELDS".toList = "SPACING".toList) from by decide),
        if_neg (show ¬("FIELDS".toList = "ORIGIN".toList) from by decide),
        if_pos (show ("FIELDS".toList = "FIELDS".toList) from rfl)]
      unfold parse_field_labels
      rw [hsplit1, hsplit2]
      rfl
    · have hsplit2 := pySplit_token "NUMDATA".toList rest (by decide) (by decide)
      unfold parse_header_line
      rw [hsplit1, hsplit2]
      dsimp only
      rw [hup, show pyUpper "NUMDATA".toList = "NUMDATA".toList from by decide,
        if_neg (show ¬("NUMDATA".toList = "SHAPE".toList) from by decide),
        if_neg (show ¬("NUMDATA".toList = "SPACING".toList) from by decide),
        if_neg (show ¬("NUMDATA".toList = "ORIGIN".toList) from by decide),
        if_neg (show ¬("NUMDATA".toList = "FIELDS".toList) from by decide),
        if_pos (show ("NUMDATA".toList = "NUMDATA".toList) from rfl)]
      unfold read_num_values
      rw [hsplit1, hsplit2]
      rfl
  · intro kw rest h1 h2 hup
    have hsplit1 := pySplit_token kw rest h1 h2
    unfold parse_header_line
    rw [hsplit1]
    dsimp only
    rw [hup,
      if_neg (show ¬("FORMAT".toList = "SHAPE".toList) from by decide),
      if_neg (show ¬("FORMAT".toList = "SPACING".toList) from by decide),
      if_neg (show ¬("FORMAT".toList = "ORIGIN".toList) from by decide),
      if_neg (show ¬("FORMAT".toList = "FIELDS".toList) from by decide),
      if_neg (show ¬("FORMAT".toList = "NUMDATA".toList) from by decide),
      if_pos (show ("FORMAT".toList = "FORMAT".toList) from rfl)]
  · intro v hv
    unfold read_format pyLstripSet
    rw [show List.dropWhile (fun c => (['F', 'O', 'R', 'M', 'A', 'T'] : List Char).contains c)
        ("FORMAT".toList ++ ' ' :: v) = ' ' :: v from rfl]
    unfold pyStrip
    rw [List.dropWhile_cons, if_pos (by decide)]
    unfold pyStrip at hv
    exact hv

theorem C5_header_keyword_case_insensitive_amended_witness :
    ("shape".toList ≠ ([] : List Char)) ∧
    parse_header_line ("shape".toList ++ ' ' :: "4 5".toList) =
      parse_header_line ("SHAPE".toList ++ ' ' :: "4 5".toList) ∧
    parse_header_line ("format".toList ++ ' ' :: "GMX_FLOW_1".toList) =
      some (HeaderLine.format (read_format ("format".toList ++ ' ' :: "GMX_FLOW_1".toList))) ∧
    read_format ("FORMAT".toList ++ ' ' :: "GMX_FLOW_1".toList) = "GMX_FLOW_1".toList :=
  ⟨by decide,
   C5_header_keyword_case_insensitive_amended.1 "shape".toList "4 5".toList "SHAPE"
     (by decide) (by decide) (by decide) (by decide) (by decide),
   C5_header_keyword_case_insensitive_amended.2.1 "format".toList "GMX_FLOW_1".toList
     (by decide) (by decide) (by decide),
   C5_header_keyword_case_insensitive_amended.2.2 "GMX_FLOW_1".toList (by decide)⟩

/-- C5, the claim as stated, is false: the keyword `format` in lower
case is dispatched as a FORMAT line, but its parsed value is the whole
line rather than `GMX_FLOW_1`, because `lstrip("FORMAT")` strips a
character set and no lowercase character belongs to it. -/
theorem C5_lowercase_format_counterexample :
    parse_header_line "FORMAT GMX_FLOW_1".toList =
      some (HeaderLine.format "GMX_FLOW_1".toList) ∧
    parse_header_line "format GMX_FLOW_1".toList =
      some (HeaderLine.format "format GMX_FLOW_1".toList) ∧
    ("format GMX_FLOW_1".toList : List Char) ≠ "GMX_FLOW_1".toList :=
  ⟨by decide, by decide, by decide⟩

/-! ### Claims C8 and C10 (view filtering and copy) -/

theorem lookup_map_columns (F : List ℚ → List ℚ) (d : FlowData) (l : String) :
    (d.map (fun p => (p.1, F p.2))).lookup l = (d.lookup l).map F := by
  induction d with
  | nil => rfl
  | cons p t ih =>
    obtain ⟨k, v⟩ := p
    rw [List.map_cons, List.lookup_cons, List.lookup_cons]
    cases hl : (l == k) with
    | true => rfl
    | false => exact ih

theorem mem_of_lookup_eq_some (l : String) (v : List ℚ) (d : FlowData)
    (h : d.lookup l = some v) : (l, v) ∈ d := by
  induction d with
  | nil => exact Option.noConfusion h
  | cons p t ih =>
    obtain ⟨k, w⟩ := p
    rw [List.lookup_cons] at h
    cases hl : (l == k) with
    | true =>
      rw [hl] at h
      injection h with h
      subst h
      rw [show k = l from (beq_iff_eq.mp hl).symm]
      exact List.mem_cons_self _ _
    | false =>
      rw [hl] at h
      exact List.mem_cons_of_mem _ (ih h)

theorem applyMask_ne_nil_of_countP_pos {α : Type} (mask : List Bool) (xs : List α)
    (hlen : mask.length = xs.length) (hpos : 0 < mask.countP (fun b => b)) :
    applyMask mask xs ≠ [] := by
  intro hc
  rw [← applyMask_length mask xs hlen, hc] at hpos
  exact Nat.lt_irrefl 0 hpos

theorem listMin_isSome (xs : List ℚ) (h : xs ≠ []) : ∃ v, listMin xs = some v := by
  cases xs with
  | nil => exact absurd rfl h
  | cons x t => exact ⟨t.foldl qmin x, rfl⟩

theorem listMax_isSome (xs : List ℚ) (h : xs ≠ []) : ∃ v, listMax xs = some v := by
  cases xs with
  | nil => exact absurd rfl h
  | cons x t => exact ⟨t.foldl qmax x, rfl⟩

/-- C8 (amended): provided at least one bin survives, `set_clim`
(SetValueLimit; SetAxisLimit is the label-X/Y instance, see the last
two conjuncts) keeps exactly the bins whose `label` value lies within
[min, max] (an absent bound standing for ±infinity) in every column,
recomputes the shape as `round((max - min)/spacing) + 1` per axis from
the surviving bins' coordinates, and reshapes the data into that 2D
grid if and only if the surviving bin count equals the product of the
recomputed shape (otherwise the data stays a flat 1D list).  When no
bin survives, the operation raises instead (see the counterexample). -/
theorem C8_set_limits_filter_and_shape (f : GmxFlow) (cmin cmax : Option ℚ)
    (label : String) (vs xs ys : List ℚ)
    (hlabel : f.data.lookup label = some vs)
    (hX : f.data.lookup "X" = some xs) (hY : f.data.lookup "Y" = some ys)
    (hwf : ∀ p ∈ f.data, p.2.length = vs.length)
    (hsurv : ∃ v ∈ vs, limit_mask cmin cmax v = true) :
    ∃ g, set_clim f cmin cmax label = some g ∧
      (∀ l cl, f.data.lookup l = some cl →
        g.data.lookup l = some (applyMask (vs.map (limit_mask cmin cmax)) cl)) ∧
      (∃ xmin xmax ymin ymax,
        listMin (applyMask (vs.map (limit_mask cmin cmax)) xs) = some xmin ∧
        listMax (applyMask (vs.map (limit_mask cmin cmax)) xs) = some xmax ∧
        listMin (applyMask (vs.map (limit_mask cmin cmax)) ys) = some ymin ∧
        listMax (applyMask (vs.map (limit_mask cmin cmax)) ys) = some ymax ∧
        g.shape = (np_round ((xmax - xmin) / f.spacing.1) + 1,
                   np_round ((ymax - ymin) / f.spacing.2) + 1)) ∧
      (g.ndim = 2 ↔
        (((applyMask (vs.map (limit_mask cmin cmax)) vs).length : ℤ) =
          g.shape.1 * g.shape.2)) ∧
      (label = "X" → set_xlim f cmin cmax = some g) ∧
      (label = "Y" → set_ylim f cmin cmax = some g) := by
  set mask := vs.map (limit_mask cmin cmax) with hmask
  have hmlen : mask.length = vs.length := List.length_map vs _
  have hcnt : 0 < mask.countP (fun b => b) := by
    rw [hmask, List.countP_map]
    obtain ⟨v, hv, hvm⟩ := hsurv
    exact List.countP_pos.mpr ⟨v, hv, hvm⟩
  have hxlen : xs.length = vs.length := hwf _ (mem_of_lookup_eq_some "X" xs f.data hX)
  have hylen : ys.length = vs.length := hwf _ (mem_of_lookup_eq_some "Y" ys f.data hY)
  obtain ⟨xmin, hxmin⟩ := listMin_isSome _
    (applyMask_ne_nil_of_countP_pos mask xs (hmlen.trans hxlen.symm) hcnt)
  obtain ⟨xmax, hxmax⟩ := listMax_isSome _
    (applyMask_ne_nil_of_countP_pos mask xs (hmlen.trans hxlen.symm) hcnt)
  obtain ⟨ymin, hymin⟩ := listMin_isSome _
    (applyMask_ne_nil_of_countP_pos mask ys (hmlen.trans hylen.symm) hcnt)
  obtain ⟨ymax, hymax⟩ := listMax_isSome _
    (applyMask_ne_nil_of_countP_pos mask ys (hmlen.trans hylen.symm) hcnt)
  have hlookX : (f.data.map (fun p => (p.1, applyMask mask p.2))).lookup "X" =
      some (applyMask mask xs) := by
    rw [lookup_map_columns, hX, Option.map_some']
  have hlookY : (f.data.map (fun p => (p.1, applyMask mask p.2))).lookup "Y" =
      some (applyMask mask ys) := by
    rw [lookup_map_columns, hY, Option.map_some']
  have hclim : set_clim f cmin cmax label = some
      { f with
        data := f.data.map (fun p => (p.1, applyMask mask p.2)),
        shape := (np_round (qdiv (qsub xmax xmin) f.spacing.1) + 1,
                  np_round (qdiv (qsub ymax ymin) f.spacing.2) + 1),
        ndim := if ((applyMask mask xs).length : ℤ) =
            (np_round (qdiv (qsub xmax xmin) f.spacing.1) + 1) *
            (np_round (qdiv (qsub ymax ymin) f.spacing.2) + 1) then 2 else 1 } := by
    unfold set_clim
    rw [hlabel]
    dsimp only
    unfold update_shape
    rw [← hmask]
    rw [hlookX, hlookY]
    dsimp only
    rw [hxmin, hxmax, hymin, hymax]
  have hmaskedlen : ∀ cl : List ℚ, cl.length = vs.length →
      (applyMask mask cl).length = (applyMask mask vs).length := by
    intro cl hcl
    rw [applyMask_length mask cl (hmlen.trans hcl.symm),
      applyMask_length mask vs hmlen]
  have hupd : update_shape
      { f with
        data := f.data.map (fun p => (p.1, applyMask mask p.2)),
        shape := (np_round (qdiv (qsub xmax xmin) f.spacing.1) + 1,
                  np_round (qdiv (qsub ymax ymin) f.spacing.2) + 1),
        ndim := if ((applyMask mask xs).length : ℤ) =
            (np_round (qdiv (qsub xmax xmin) f.spacing.1) + 1) *
            (np_round (qdiv (qsub ymax ymin) f.spacing.2) + 1) then 2 else 1 } =
      some { f with
             data := f.data.map (fun p => (p.1, applyMask mask p.2)),
             shape := (np_round (qdiv (qsub xmax xmin) f.spacing.1) + 1,
                       np_round (qdiv (qsub ymax ymin) f.spacing.2) + 1),
             ndim := if ((applyMask mask xs).length : ℤ) =
                 (np_round (qdiv (qsub xmax xmin) f.spacing.1) + 1) *
                 (np_round (qdiv (qsub ymax ymin) f.spacing.2) + 1) then 2 else 1 } := by
    unfold update_shape
    dsimp only
    rw [hlookX, hlookY]
    dsimp only
    rw [hxmin, hxmax, hymin, hymax]
    dsimp only
    refine congrArg some ?_
    by_cases hcond : ((applyMask mask xs).length : ℤ) =
        (np_round (qdiv (qsub xmax xmin) f.spacing.1) + 1) *
        (np_round (qdiv (qsub ymax ymin) f.spacing.2) + 1)
    · rw [if_pos hcond, if_pos hcond]
    · rw [if_neg hcond, if_neg hcond]
  refine ⟨_, hclim, ?_, ?_, ?_, ?_, ?_⟩
  · intro l cl hcl
    show (f.data.map (fun p => (p.1, applyMask mask p.2))).lookup l = _
    rw [lookup_map_columns, hcl, Option.map_some']
  · refine ⟨xmin, xmax, ymin, ymax, hxmin, hxmax, hymin, hymax, ?_⟩
    show ((np_round (qdiv (qsub xmax xmin) f.spacing.1) + 1 : ℤ),
      (np_round (qdiv (qsub ymax ymin) f.spacing.2) + 1 : ℤ)) = _
    rw [qsub_eq, qsub_eq, qdiv_eq, qdiv_eq]
  · show (if ((applyMask mask xs).length : ℤ) = _ then 2 else 1) = 2 ↔ _
    rw [hmaskedlen xs hxlen]
    constructor
    · intro h2
      by_contra hcond
      rw [if_neg hcond] at h2
      exact absurd h2 (by decide)
    · intro hc
      rw [if_pos hc]
  · intro hlab
    subst hlab
    unfold set_xlim
    rw [hclim, Option.some_bind]
    exact hupd
  · intro hlab
    subst hlab
    unfold set_ylim
    rw [hclim, Option.some_bind]
    exact hupd

theorem C8_set_limits_filter_and_shape_witness :
    ∃ g, set_clim c2flow (some 0) (some 1) "X" = some g ∧
      set_xlim c2flow (some 0) (some 1) = some g ∧
      g.shape = (1, 2) ∧ g.ndim = 2 ∧
      g.data.lookup "M" = some (applyMask
        (([qhalf, qhalf, Rat.divInt 3 2, Rat.divInt 3 2] : List ℚ).map
          (limit_mask (some 0) (some 1))) [1, 2, 3, 4]) := by
  obtain ⟨g, hg, hcols, -, -, hx, -⟩ := C8_set_limits_filter_and_shape c2flow
    (some 0) (some 1) "X" _ _ _ rfl rfl rfl (by decide) (by decide)
  refine ⟨g, hg, hx rfl, ?_, ?_, hcols "M" [1, 2, 3, 4] rfl⟩
  · have hev : (set_clim c2flow (some 0) (some 1) "X").map (fun h => h.shape) =
        some (1, 2) := by decide
    rw [hg] at hev
    exact Option.some.inj hev
  · have hev : (set_clim c2flow (some 0) (some 1) "X").map (fun h => h.ndim) =
        some 2 := by decide
    rw [hg] at hev
    exact Option.some.inj hev

/-- C8, the claim as stated, is false when no bin survives the limits:
on the 2×2 field `c2flow` (bin centers X ∈ {1/2, 3/2}) the limits
[100, 200] retain no bin, and instead of producing a field with the
claimed recomputed shape, the operation raises (numpy `ValueError`
from the empty `min()` reduction inside `_calc_shape_from_data`),
modelled by `none`. -/
theorem C8_empty_filter_raises_counterexample :
    set_clim c2flow (some 100) (some 200) "X" = none ∧
    set_xlim c2flow (some 100) (some 200) = none ∧
    (∀ v ∈ ([qhalf, qhalf, Rat.divInt 3 2, Rat.divInt 3 2] : List ℚ),
      limit_mask (some 100) (some 200) v = false) :=
  ⟨by decide, by decide, by decide⟩

/-- C10: `copy` (deepcopy + `reset_view`) returns an instance whose
live data view is the full original backing grid with the original
backing shape and a 2D view: an active filter on the source is
discarded, so when the source's view differs from its backing grid the
copy's data differs from the source's currently visible data. -/
theorem C10_copy_discards_active_filter (f : GmxFlow) :
    (copy_flow f).data = f.backup_data ∧
    (copy_flow f).shape = f.backup_shape ∧
    (copy_flow f).ndim = 2 ∧
    (copy_flow f).backup_data = f.backup_data ∧
    (f.data ≠ f.backup_data → (copy_flow f).data ≠ f.data) :=
  ⟨rfl, rfl, rfl, rfl, fun h hc => h hc.symm⟩

/-- `c2flow` with the x-limit filter [0, 1] applied: a filtered view
(2 surviving bins of 4). -/
def c10flow : GmxFlow := (set_xlim c2flow (some 0) (some 1)).getD c2flow

theorem C10_copy_discards_active_filter_witness :
    c10flow.data ≠ c10flow.backup_data ∧
    (copy_flow c10flow).data = c10flow.backup_data ∧
    (copy_flow c10flow).shape = c10flow.backup_shape ∧
    (copy_flow c10flow).data ≠ c10flow.data :=
  ⟨by decide, (C10_copy_discards_active_filter c10flow).1,
   (C10_copy_discards_active_filter c10flow).2.1,
   (C10_copy_discards_active_filter c10flow).2.2.2.2 (by decide)⟩

end GmxFlowVerif
